import Mathlib

/-!
Verification development for the real-time voice session orchestrator of the
technician app (the `VoiceAgent` class in
`src/frontend/technician-app/src/services/voiceAgent.ts` — the richer variant
with the function-call-argument buffer, `call_id` tagging and the
`hasActiveResponse` flag — together with the tool registry in
`voiceAgentTools.ts` and the workflow-transition validator printed in
`docs/step10_voice_agent.md`).

The embedding translates the TypeScript source into executable Lean
definitions.  External collaborators (the browser's `JSON.parse`, the backend
REST API reached through `api.*`, the audio decoder) are modelled as oracle
parameters or as recorded effects; everything the voice-agent code itself
computes (buffers, guards, switch dispatch, message construction) is
translated directly from the source.
-/

/-- Minimal JSON value model, standing for the JavaScript values produced by
`JSON.parse` and consumed by `JSON.stringify`. -/
inductive Json where
  | null : Json
  | bool (b : Bool) : Json
  | num (n : Int) : Json
  | str (s : String) : Json
  | arr (xs : List Json) : Json
  | obj (fields : List (String × Json)) : Json

namespace Workflow

/-- The eight technician workflow states, from the `enum` in the
`update_workflow_state` tool schema of `voiceAgentTools.ts` (also §4.4 of the
spec). -/
inductive WorkflowState where
  | CLOCKED_IN
  | TRAVELING_TO_FIRST_JOB
  | AT_JOBSITE
  | WORKING_ON_JOB
  | JOB_COMPLETED
  | TRAVELING_TO_NEXT_JOB
  | TRAVELING_TO_OFFICE
  | DAY_COMPLETED
deriving DecidableEq

open WorkflowState

/-- The `validTransitions` table of `validateStateTransition` in
`docs/step10_voice_agent.md` (the only implementation of the workflow state
machine's transition table present in the repository). -/
def validTransitions : WorkflowState → List WorkflowState
  | CLOCKED_IN => [TRAVELING_TO_FIRST_JOB]
  | TRAVELING_TO_FIRST_JOB => [AT_JOBSITE]
  | AT_JOBSITE => [WORKING_ON_JOB]
  | WORKING_ON_JOB => [JOB_COMPLETED]
  | JOB_COMPLETED => [TRAVELING_TO_NEXT_JOB, TRAVELING_TO_OFFICE]
  | TRAVELING_TO_NEXT_JOB => [AT_JOBSITE]
  | TRAVELING_TO_OFFICE => [DAY_COMPLETED]
  | DAY_COMPLETED => []

/-- `validateStateTransition(currentState, newState)` from
`docs/step10_voice_agent.md`: `validTransitions[currentState].includes(newState)`. -/
def validateStateTransition (currentState newState : WorkflowState) : Bool :=
  (validTransitions currentState).contains newState

/-- The edge list of the table in §4.4 of the spec, written down from the
spec's words (for comparison with `validateStateTransition`, which is
translated from the repository's doc code). -/
def spec44Table : List (WorkflowState × WorkflowState) :=
  [ (CLOCKED_IN, TRAVELING_TO_FIRST_JOB)
  , (TRAVELING_TO_FIRST_JOB, AT_JOBSITE)
  , (AT_JOBSITE, WORKING_ON_JOB)
  , (WORKING_ON_JOB, JOB_COMPLETED)
  , (JOB_COMPLETED, TRAVELING_TO_NEXT_JOB)
  , (JOB_COMPLETED, TRAVELING_TO_OFFICE)
  , (TRAVELING_TO_NEXT_JOB, AT_JOBSITE)
  , (TRAVELING_TO_OFFICE, DAY_COMPLETED) ]

/-- Membership in the §4.4 table. -/
def spec44Allows (c t : WorkflowState) : Bool :=
  spec44Table.contains (c, t)

/-- Backend calls a dispatched tool handler can make (the `api.*` REST
wrappers of `api.ts`, recorded as effects; the id strings are passed as the
handler received them — `api.ts` forwards them after `parseInt`). -/
inductive ApiCall where
  | updateWorkflowState (technicianId : String) (state : WorkflowState)
      (currentWorkOrderId : Option String) (nextWorkOrderId : Option String)
  | updateWorkOrderNotes (workOrderId : String) (notes : String) (alertOffice : Bool)
deriving DecidableEq

/-- The `update_workflow_state` handler of `functionMap` in
`voiceAgentTools.ts`: it calls `api.updateWorkflowState` directly and
unconditionally — there is no call to any transition validator and the handler
does not even receive the current state. -/
def update_workflow_state (technician_id : String) (state : WorkflowState)
    (current_work_order_id next_work_order_id : Option String) : List ApiCall :=
  [ApiCall.updateWorkflowState technician_id state
    current_work_order_id next_work_order_id]

end Workflow

namespace VoiceAgent

/-- Ready state of the RTCDataChannel used as the control channel.  `open` is
a Lean keyword, so the open state is called `opened`. -/
inductive ReadyState where
  | connecting
  | opened
  | closing
  | closed
deriving DecidableEq

/-- The `FunctionCall` record of `voiceAgent.ts`: `{name, arguments, call_id?}`.
`call_id` is optional (the `handleResponseContent` path constructs the record
without it). -/
structure FunctionCall where
  name : String
  arguments : String
  call_id : Option String
deriving DecidableEq

/-- The per-session mutable fields of the `VoiceAgent` class that the claims
are about: the function-call accumulator (`functionCall`, `functionCallArgs`,
`functionCallArgumentsBuffer`), the `hasActiveResponse` flag, the data
channel, and — modelling the `setTimeout` issued on a rate-limited
`response.done` — the deadlines of pending timer callbacks that will clear
`hasActiveResponse`. -/
structure AgentState where
  functionCall : Option FunctionCall
  functionCallArgs : String
  functionCallArgumentsBuffer : String
  hasActiveResponse : Bool
  dataChannel : Option ReadyState
  pendingClears : List Nat
deriving DecidableEq

/-- Content items carried by a `response.output_item.added` message
(`handleResponseContent`'s switch over `item.type`). -/
inductive ContentItem where
  | text (t : String)
  | audio (chunk : String)
  | function_call (name : String) (arguments : String)
  | other (t : String)

/-- Inbound control-channel messages, one constructor per case of the
`handleWebSocketMessage` switch (unrecognized types fall into `unknown`). -/
inductive InMsg where
  | sessionCreated
  | sessionUpdated
  | errorMsg (message : String)
  | speechStarted
  | speechStopped
  | committed
  | responseCreated
  | fcStarted
  | fcDelta (delta : String)
  | fcDone (name : String) (callId : String)
  | outputItemAdded (content : List ContentItem)
  | responseDone (status : String) (reason : Option String) (errorCode : Option String)
  | unknown (t : String)

/-- Outbound control-channel messages the agent sends
(`this.dataChannel.send(JSON.stringify(...))` sites). -/
inductive OutMsg where
  | responseCreate
  | sessionUpdate
  | conversationItemCreate (callId : Option String) (output : Json)

/-- Observable effects of processing a message: control-channel sends, event
emissions, the `setTimeout`-based settling wait, and handing an audio delta to
`playAudioDelta`. -/
inductive Effect where
  | send (m : OutMsg)
  | wait (ms : Nat)
  | playAudio (chunk : String)
  | emitText (t : String)
  | emitError (message : String)
  | emitEvent (name : String)

/-- Oracle for the browser's `JSON.parse`: either a parsed value or the
thrown error's message. -/
def JsonParse : Type := String → Except String Json

/-- Oracle for the registered handlers of `functionMap` (each an `await`ed
call into the backend API): given the function name and the parsed argument
object, either the handler's result or the thrown error's message.  The
per-case destructuring of argument fields (`args.technician_id`, ...) done by
the `handleFunctionCall` switch is folded into this oracle. -/
def Exec : Type := String → Json → Except String Json

/-- Names present in the `functionMap` object of `voiceAgentTools.ts` (the
`functionName in functionMap` check). -/
def functionMapNames : List String :=
  [ "get_work_orders", "get_technician_status", "start_travel", "end_travel"
  , "update_work_order_notes", "check_inventory", "update_inventory"
  , "create_manual_notification", "start_job", "end_job", "update_workflow_state" ]

/-- Names with a case in the `switch (functionName)` of `handleFunctionCall`
(note: `update_workflow_state` is in `functionMap` but has no case, so it
falls to the `default` branch and throws). -/
def switchNames : List String :=
  [ "get_technician_status", "get_work_orders", "start_travel", "end_travel"
  , "update_work_order_notes", "check_inventory", "update_inventory"
  , "create_manual_notification", "start_job", "end_job" ]

/-- Line 484 of the source: `const args = this.functionCallArgs ?
JSON.parse(this.functionCallArgs) : {}` — the empty string is falsy, so an
empty argument string is never parsed and becomes the empty object. -/
def parsedArguments (p : JsonParse) (fc : FunctionCall) : Except String Json :=
  if fc.arguments = "" then Except.ok (Json.obj []) else p fc.arguments

/-- The body of the `try` block of `handleFunctionCall`: parse the arguments,
check membership in `functionMap`, run the switch (whose `default` throws
`Unknown function: <name>`), invoking the registered handler. -/
def dispatchTry (p : JsonParse) (exec : Exec) (fc : FunctionCall) :
    Except String Json :=
  match parsedArguments p fc with
  | Except.error e => Except.error e
  | Except.ok args =>
      if functionMapNames.contains fc.name then
        if switchNames.contains fc.name then
          exec fc.name args
        else
          Except.error ("Unknown function: " ++ fc.name)
      else
        Except.error ("Unknown function: " ++ fc.name)

/-- The error payload constructed in the `catch` block:
`{error: "Error executing <name>: <message>"}`. -/
def errorPayload (name message : String) : Json :=
  Json.obj [("error", Json.str ("Error executing " ++ name ++ ": " ++ message))]

/-- The part of `handleFunctionCall` after the handler has returned or
thrown: both send sites are guarded by
`this.dataChannel && this.dataChannel.readyState === 'open'`, re-reading the
channel at that moment (the argument `chan` is the channel state at send
time, which may differ from the one at dispatch entry if `disconnect()` ran
while the handler was in flight).  On success the agent sends the
`function_call_output` item tagged with the call's `call_id` and then awaits
a 500 ms settling timeout; on error it sends the error payload. -/
def dispatchComplete (fc : FunctionCall) (result : Except String Json)
    (chan : Option ReadyState) : List Effect :=
  match result with
  | Except.ok r =>
      if chan = some ReadyState.opened then
        [Effect.send (OutMsg.conversationItemCreate fc.call_id r), Effect.wait 500]
      else []
  | Except.error message =>
      if chan = some ReadyState.opened then
        [Effect.send (OutMsg.conversationItemCreate fc.call_id (errorPayload fc.name message))]
      else []

/-- The unconditional reset after the `try`/`catch` (lines 560-563):
`functionCall = null; functionCallArgs = ""; functionCallArgumentsBuffer = ""`. -/
def resetCall (s : AgentState) : AgentState :=
  { s with functionCall := none, functionCallArgs := "",
           functionCallArgumentsBuffer := "" }

/-- The whole of `handleFunctionCall`, run without interleaving: early return
when no call or no channel is present, then `dispatchTry`, the guarded sends,
and the state reset. -/
def handleFunctionCall (p : JsonParse) (exec : Exec) (s : AgentState) :
    AgentState × List Effect :=
  match s.functionCall with
  | none => (s, [])
  | some fc =>
      if s.dataChannel = none then (s, [])
      else (resetCall s, dispatchComplete fc (dispatchTry p exec fc) s.dataChannel)

/-- The `PendingFunctionCall` closed by a
`response.function_call_arguments.done` message: the message's `name` and
`call_id` with the accumulated argument buffer. -/
def closePending (s : AgentState) (name callId : String) : FunctionCall :=
  ⟨name, s.functionCallArgumentsBuffer, some callId⟩

/-- The `handleResponseContent` forEach: text items are emitted, audio items
are handed to `playAudioDelta`, `function_call` items set the pending call
(without a `call_id`) and dispatch it.  The source fires `handleFunctionCall`
without awaiting it; it is modelled run-to-completion here, which preserves
the per-item state updates and effects in item order. -/
def handleResponseContent (p : JsonParse) (exec : Exec) (s : AgentState) :
    List ContentItem → AgentState × List Effect
  | [] => (s, [])
  | item :: rest =>
      let (s', effs) :=
        match item with
        | ContentItem.text t => (s, [Effect.emitText t])
        | ContentItem.audio chunk => (s, [Effect.playAudio chunk])
        | ContentItem.function_call name arguments =>
            handleFunctionCall p exec
              { s with functionCall := some ⟨name, arguments, none⟩,
                       functionCallArgs := arguments }
        | ContentItem.other _ => (s, [])
      let (s'', effs') := handleResponseContent p exec s' rest
      (s'', effs ++ effs')

/-- Check whether the character list `p` is a leading segment of `l`
(helper for `strIncludes`). -/
def startsWithList (p l : List Char) : Bool :=
  match p, l with
  | [], _ => true
  | _ :: _, [] => false
  | a :: ps, b :: ls => a = b && startsWithList ps ls

/-- Check whether `p` occurs contiguously inside `l`
(helper for `strIncludes`). -/
def includesList (p l : List Char) : Bool :=
  match l with
  | [] => startsWithList p []
  | _ :: rest => startsWithList p l || includesList p rest

/-- JavaScript's `String.prototype.includes`, used by the benign-error check
`message.error?.message?.includes('already has an active response')`. -/
def strIncludes (s pattern : String) : Bool :=
  includesList pattern.toList s.toList

/-- The `handleWebSocketMessage` switch of the source, one message at a time.
`now` is the wall-clock time at which the message is processed; it is only
consulted to schedule the 5000 ms `setTimeout` of the rate-limit branch of
`response.done`. -/
def stepMsg (p : JsonParse) (exec : Exec) (now : Nat) (s : AgentState) :
    InMsg → AgentState × List Effect
  | InMsg.sessionCreated => (s, [])
  | InMsg.sessionUpdated => (s, [])
  | InMsg.errorMsg message =>
      if strIncludes message "already has an active response" then
        (s, [])
      else
        (s, [Effect.emitError message])
  | InMsg.speechStarted => (s, [Effect.emitEvent "speech_started"])
  | InMsg.speechStopped => (s, [Effect.emitEvent "speech_stopped"])
  | InMsg.committed =>
      if s.dataChannel ≠ none ∧ s.hasActiveResponse = false then
        ({ s with hasActiveResponse := true }, [Effect.send OutMsg.responseCreate])
      else (s, [])
  | InMsg.responseCreated => ({ s with hasActiveResponse := true }, [])
  | InMsg.fcStarted => ({ s with functionCallArgumentsBuffer := "" }, [])
  | InMsg.fcDelta delta =>
      ({ s with functionCallArgumentsBuffer := s.functionCallArgumentsBuffer ++ delta }, [])
  | InMsg.fcDone name callId =>
      let fc := closePending s name callId
      handleFunctionCall p exec
        { s with functionCall := some fc, functionCallArgs := fc.arguments,
                 functionCallArgumentsBuffer := "" }
  | InMsg.outputItemAdded content => handleResponseContent p exec s content
  | InMsg.responseDone status reason errorCode =>
      if status = "cancelled" ∧ reason = some "turn_detected" then
        ({ s with hasActiveResponse := false }, [Effect.emitEvent "response_done"])
      else if status = "failed" ∧ errorCode = some "rate_limit_exceeded" then
        ({ s with pendingClears := s.pendingClears ++ [now + 5000] },
         [Effect.emitEvent "response_done"])
      else
        ({ s with hasActiveResponse := false }, [Effect.emitEvent "response_done"])
  | InMsg.unknown _ => (s, [])

/-- Fire the `setTimeout` callbacks whose deadline has passed: each runs
`this.hasActiveResponse = false`. -/
def fireDue (now : Nat) (s : AgentState) : AgentState :=
  if s.pendingClears.any (fun d => d ≤ now) then
    { s with hasActiveResponse := false,
             pendingClears := s.pendingClears.filter (fun d => now < d) }
  else s

/-- Process a list of messages in arrival order (the control channel is
ordered), accumulating effects. -/
def runMsgs (p : JsonParse) (exec : Exec) (now : Nat) :
    AgentState → List InMsg → AgentState × List Effect
  | s, [] => (s, [])
  | s, m :: ms =>
      let (s', effs) := stepMsg p exec now s m
      let (s'', effs') := runMsgs p exec now s' ms
      (s'', effs ++ effs')

/-- The `cleanup()` method (lines 601-623): closes and nulls the data channel
and resets the flags.  After it, `this.dataChannel` is `null`. -/
def cleanup (s : AgentState) : AgentState :=
  { s with dataChannel := none, hasActiveResponse := false }

end VoiceAgent

namespace AudioPipeline

/-!
Timing model of inbound-audio playback, read off `playAudioDelta` and its
call site.  `handleResponseContent` invokes `this.playAudioDelta(item.audio)`
without awaiting it, so the decodes of successive chunks run concurrently on
the event loop; inside `playAudioDelta` the chunk is decoded
(`await this.audioContext.decodeAudioData(...)`) and, as soon as that decode
resolves, `source.start()` is called with no scheduling argument, starting
playback immediately.  A chunk is therefore rendered (started on the audio
output) at its arrival time plus its own decode latency, and the rendering
order is the order of those completion times, earlier-arrived chunks first on
ties.  A chunk is modelled as the pair (arrival time, decode latency), both
in milliseconds.
-/

/-- Completion times of a chunk list: arrival plus decode latency. -/
def completions (chunks : List (Nat × Nat)) : List Nat :=
  chunks.map (fun c => c.1 + c.2)

/-- Insert chunk index `i` into an accumulated rendering order, after every
index whose completion time is at most `i`'s (stable: equal completion times
keep arrival order). -/
def insertIdx (cs : List Nat) (i : Nat) : List Nat → List Nat
  | [] => [i]
  | j :: rest =>
      if cs.getD j 0 ≤ cs.getD i 0 then j :: insertIdx cs i rest
      else i :: j :: rest

/-- The order (as a list of chunk indices) in which chunks start playing:
indices sorted stably by completion time. -/
def renderOrder (chunks : List (Nat × Nat)) : List Nat :=
  (List.range chunks.length).foldl
    (fun acc i => insertIdx (completions chunks) i acc) []

/-- Arrival order of the chunks, i.e. the indices in the order the deltas
were received (equal to the order their decodes are submitted, since
`handleResponseContent` iterates the items synchronously). -/
def arrivalOrder (chunks : List (Nat × Nat)) : List Nat :=
  List.range chunks.length

end AudioPipeline

namespace SessionCtl

/-!
Interleaving model of `connect()` for the idempotence claim.  In the source,
`connect()` begins with the guard `if (this.peerConnection) return;`
(lines 86-90) and then immediately awaits the token fetch; only after that
response arrives is `this.peerConnection` assigned (line 116).  The remainder
of a successful connect creates the data channel, whose `onopen` handler runs
`initializeSession()`, sending exactly one `session.update` configuration
message.  The model tracks two invocations of `connect()` (A and B), each a
small program with one suspension point at the token fetch; a schedule is a
list of booleans saying which invocation advances next.  The `phase` field is
the spec-level session phase: it becomes `connecting` as soon as some
invocation has entered the body and `active` when one completes.
-/

/-- Spec-level session phase (§4.6: Idle → Connecting → Active). -/
inductive Phase where
  | idle
  | connecting
  | active
deriving DecidableEq

/-- Program counter of one `connect()` invocation: at the entry guard,
suspended at the token fetch, finished, or returned early through the guard. -/
inductive CPC where
  | entry
  | afterToken
  | finished
  | aborted
deriving DecidableEq

/-- Global state: whether `this.peerConnection` is assigned, the spec-level
phase, how many `session.update` messages have been sent, and the two
invocations' program counters. -/
structure CState where
  pcExists : Bool
  phase : Phase
  sessionUpdates : Nat
  a : CPC
  b : CPC
deriving DecidableEq

/-- Advance one invocation by one step.  At `entry`, the guard reads
`this.peerConnection`: if assigned, the call logs and returns (no other
effect); otherwise the body is entered (the session is now connecting) and
the invocation suspends at the token fetch.  At `afterToken`, the rest of the
source's connect body runs: the peer connection is assigned, the channel
opens, and `initializeSession` sends one `session.update`. -/
def advance (counter : CPC) (s : CState) : CPC × CState :=
  match counter with
  | CPC.entry =>
      if s.pcExists then (CPC.aborted, s)
      else (CPC.afterToken, { s with phase := Phase.connecting })
  | CPC.afterToken =>
      (CPC.finished,
       { s with pcExists := true, phase := Phase.active,
                sessionUpdates := s.sessionUpdates + 1 })
  | c => (c, s)

/-- Run one scheduler step: `false` advances invocation A, `true` advances
invocation B. -/
def schedStep (s : CState) (who : Bool) : CState :=
  if who then
    let r := advance s.b s
    { r.2 with b := r.1 }
  else
    let r := advance s.a s
    { r.2 with a := r.1 }

/-- Run a schedule from a state. -/
def runSched (s : CState) : List Bool → CState
  | [] => s
  | w :: ws => runSched (schedStep s w) ws

/-- Initial state: no peer connection, idle, nothing sent, both invocations
at their entry guard. -/
def initCState : CState :=
  ⟨false, Phase.idle, 0, CPC.entry, CPC.entry⟩

end SessionCtl

section ConcreteInputs

open VoiceAgent

/-- A `JSON.parse` oracle that always throws (message of a `SyntaxError`). -/
def alwaysFailParse : JsonParse := fun _ => Except.error "SyntaxError"

/-- A `JSON.parse` oracle that accepts exactly the text `\x7b\x7d` (an empty
JSON object) and throws on everything else. -/
def braceParse : JsonParse :=
  fun st => if st = "\x7b\x7d" then Except.ok (Json.obj []) else Except.error "SyntaxError"

/-- A handler oracle whose handlers all succeed with `null`. -/
def okExec : Exec := fun _ _ => Except.ok Json.null

/-- An idle connected agent: channel open, no pending call, no active
response, no timers. -/
def initAgent : AgentState :=
  ⟨none, "", "", false, some ReadyState.opened, []⟩

/-- A connected agent in the middle of a model response: like `initAgent`
but with the active-response flag set. -/
def activeAgent : AgentState :=
  ⟨none, "", "", true, some ReadyState.opened, []⟩

end ConcreteInputs

/-- C1: the workflow transition table of the repository
(`validateStateTransition` in `docs/step10_voice_agent.md`) agrees exactly
with the table in §4.4 of the spec, and rejects the direct
CLOCKED_IN → AT_JOBSITE edge; but the shipped `update_workflow_state` handler
of `voiceAgentTools.ts` mutates remote state unconditionally, for every
requested target state, without consulting any validator — the validation
prescribed by the claim (and by the repository's own documentation) is absent
from the dispatch path. -/
theorem c1_table_matches_but_dispatch_never_validates :
    (∀ c t, Workflow.validateStateTransition c t = Workflow.spec44Allows c t)
    ∧ Workflow.validateStateTransition Workflow.WorkflowState.CLOCKED_IN
        Workflow.WorkflowState.AT_JOBSITE = false
    ∧ (∀ tech st cwo nwo, Workflow.update_workflow_state tech st cwo nwo =
        [Workflow.ApiCall.updateWorkflowState tech st cwo nwo]) := by
  refine ⟨?_, rfl, ?_⟩
  · intro c t
    cases c <;> cases t <;> rfl
  · intro tech st cwo nwo
    rfl

/-- C2 counterexample: with a PendingFunctionCall open (a fragment `x` is
accumulated in the buffer), a second `response.function_call_arguments`
opening event (`function_call.started`) silently resets the open call's
buffer to the empty string, producing no effect at all — nothing is queued
and nothing is rejected — so the accumulated fragment is lost. -/
theorem c2_counterexample :
    (VoiceAgent.runMsgs alwaysFailParse okExec 0 initAgent
        [VoiceAgent.InMsg.fcStarted, VoiceAgent.InMsg.fcDelta "x"]).1.functionCallArgumentsBuffer
      = "x"
  ∧ VoiceAgent.runMsgs alwaysFailParse okExec 0 initAgent
        [VoiceAgent.InMsg.fcStarted, VoiceAgent.InMsg.fcDelta "x", VoiceAgent.InMsg.fcStarted]
      = (⟨none, "", "", false, some VoiceAgent.ReadyState.opened, []⟩, []) :=
  ⟨rfl, rfl⟩

/-- C3: every failure of a dispatched function call is recovered locally.
If the looked-up name is unknown, the argument string fails to parse, or the
registered handler throws, `handleFunctionCall` does not propagate the
exception: it returns normally, sends exactly the structured payload
`\x7berror: "Error executing <name>: <message>"\x7d` as the call's
`function_call_output` over the control channel (no session-level error
effect is emitted), and resets the per-call state. -/
theorem c3_function_errors_recovered_locally :
    (∀ p exec s fc message, s.functionCall = some fc →
       s.dataChannel = some VoiceAgent.ReadyState.opened →
       VoiceAgent.dispatchTry p exec fc = Except.error message →
       VoiceAgent.handleFunctionCall p exec s =
         (VoiceAgent.resetCall s,
          [VoiceAgent.Effect.send (VoiceAgent.OutMsg.conversationItemCreate fc.call_id
             (VoiceAgent.errorPayload fc.name message))]))
  ∧ (∀ p exec fc j, VoiceAgent.parsedArguments p fc = Except.ok j →
       fc.name ∉ VoiceAgent.functionMapNames →
       VoiceAgent.dispatchTry p exec fc = Except.error ("Unknown function: " ++ fc.name))
  ∧ (∀ p exec fc message, fc.arguments ≠ "" → p fc.arguments = Except.error message →
       VoiceAgent.dispatchTry p exec fc = Except.error message)
  ∧ (∀ p exec fc j message, VoiceAgent.parsedArguments p fc = Except.ok j →
       fc.name ∈ VoiceAgent.functionMapNames →
       fc.name ∈ VoiceAgent.switchNames →
       exec fc.name j = Except.error message →
       VoiceAgent.dispatchTry p exec fc = Except.error message) := by
  refine ⟨?_, ?_, ?_, ?_⟩
  · intro p exec s fc message hfc hch herr
    simp [VoiceAgent.handleFunctionCall, hfc, hch, herr, VoiceAgent.dispatchComplete]
  · intro p exec fc j hparse hname
    simp [VoiceAgent.dispatchTry, hparse, hname]
  · intro p exec fc message hne hperr
    simp [VoiceAgent.dispatchTry, VoiceAgent.parsedArguments, hne, hperr]
  · intro p exec fc j message hparse hmap hswitch hexec
    simp [VoiceAgent.dispatchTry, hparse, hmap, hswitch, hexec]

/-- C3 witness: dispatching the unknown function `nonexistent_tool` on an
idle connected agent produces exactly the structured error output, tagged
with the call id, and resets the call state. -/
theorem c3_witness :
    VoiceAgent.handleFunctionCall alwaysFailParse okExec
        ⟨some ⟨"nonexistent_tool", "", some "c9"⟩, "", "", false,
         some VoiceAgent.ReadyState.opened, []⟩
      = (⟨none, "", "", false, some VoiceAgent.ReadyState.opened, []⟩,
         [VoiceAgent.Effect.send (VoiceAgent.OutMsg.conversationItemCreate (some "c9")
            (VoiceAgent.errorPayload "nonexistent_tool"
              "Unknown function: nonexistent_tool"))]) :=
  c3_function_errors_recovered_locally.1 alwaysFailParse okExec
    ⟨some ⟨"nonexistent_tool", "", some "c9"⟩, "", "", false,
     some VoiceAgent.ReadyState.opened, []⟩
    ⟨"nonexistent_tool", "", some "c9"⟩ "Unknown function: nonexistent_tool"
    rfl rfl rfl

/-- Concatenation of streamed fragments in arrival order. -/
def concatAll (deltas : List String) : String :=
  deltas.foldl (fun b d => b ++ d) ""

/-- Feeding a run of `arguments.delta` messages appends each fragment to the
accumulator in arrival order and produces no effects. -/
theorem runMsgs_deltas (p : VoiceAgent.JsonParse) (exec : VoiceAgent.Exec)
    (now : Nat) (deltas : List String) (s : VoiceAgent.AgentState) :
    VoiceAgent.runMsgs p exec now s (deltas.map VoiceAgent.InMsg.fcDelta)
      = ({ s with functionCallArgumentsBuffer :=
             deltas.foldl (fun b d => b ++ d) s.functionCallArgumentsBuffer }, []) := by
  induction deltas generalizing s with
  | nil => simp [VoiceAgent.runMsgs]
  | cons d ds ih => simp [VoiceAgent.runMsgs, VoiceAgent.stepMsg, ih]

/-- C4: round-trip of streamed function-call arguments.  Processing
`function_call.started`, a sequence of `arguments.delta` fragments, and then
`arguments.done` leaves the accumulator holding exactly the concatenation of
the fragments in arrival order; the PendingFunctionCall closed by the `done`
message carries that concatenation as its argument string; and when the
concatenation is valid JSON (the parse oracle returns `j`), the argument
parse performed by the dispatcher yields exactly `j`. -/
theorem c4_delta_reassembly_roundtrip (p : VoiceAgent.JsonParse)
    (exec : VoiceAgent.Exec) (now : Nat) (s : VoiceAgent.AgentState)
    (deltas : List String) (name callId : String) (j : Json)
    (hne : concatAll deltas ≠ "")
    (hj : p (concatAll deltas) = Except.ok j) :
    ((VoiceAgent.runMsgs p exec now s
        (VoiceAgent.InMsg.fcStarted :: deltas.map VoiceAgent.InMsg.fcDelta)).1.functionCallArgumentsBuffer
      = concatAll deltas)
  ∧ (VoiceAgent.closePending
        (VoiceAgent.runMsgs p exec now s
          (VoiceAgent.InMsg.fcStarted :: deltas.map VoiceAgent.InMsg.fcDelta)).1 name callId
      = ⟨name, concatAll deltas, some callId⟩)
  ∧ (VoiceAgent.parsedArguments p
        (VoiceAgent.closePending
          (VoiceAgent.runMsgs p exec now s
            (VoiceAgent.InMsg.fcStarted :: deltas.map VoiceAgent.InMsg.fcDelta)).1 name callId)
      = Except.ok j) := by
  have hbuf : VoiceAgent.runMsgs p exec now s
      (VoiceAgent.InMsg.fcStarted :: deltas.map VoiceAgent.InMsg.fcDelta)
      = ({ s with functionCallArgumentsBuffer := concatAll deltas }, []) := by
    simp [VoiceAgent.runMsgs, VoiceAgent.stepMsg, runMsgs_deltas, concatAll]
  refine ⟨?_, ?_, ?_⟩ <;>
    simp [hbuf, VoiceAgent.closePending, VoiceAgent.parsedArguments, hne, hj]

/-- C4 witness: the fragments `\x7b` and `\x7d` reassemble to the two-byte
text of the empty JSON object, which the parse oracle accepts, and the
dispatcher's argument parse returns the parsed empty object. -/
theorem c4_witness :
    ((VoiceAgent.runMsgs braceParse okExec 0 initAgent
        (VoiceAgent.InMsg.fcStarted :: (["\x7b", "\x7d"].map VoiceAgent.InMsg.fcDelta))).1.functionCallArgumentsBuffer
      = concatAll ["\x7b", "\x7d"])
  ∧ (VoiceAgent.closePending
        (VoiceAgent.runMsgs braceParse okExec 0 initAgent
          (VoiceAgent.InMsg.fcStarted :: (["\x7b", "\x7d"].map VoiceAgent.InMsg.fcDelta))).1
        "check_inventory" "c4"
      = ⟨"check_inventory", concatAll ["\x7b", "\x7d"], some "c4"⟩)
  ∧ (VoiceAgent.parsedArguments braceParse
        (VoiceAgent.closePending
          (VoiceAgent.runMsgs braceParse okExec 0 initAgent
            (VoiceAgent.InMsg.fcStarted :: (["\x7b", "\x7d"].map VoiceAgent.InMsg.fcDelta))).1
          "check_inventory" "c4")
      = Except.ok (Json.obj [])) :=
  c4_delta_reassembly_roundtrip braceParse okExec 0 initAgent ["\x7b", "\x7d"]
    "check_inventory" "c4" (Json.obj []) (by decide) rfl

/-- C5: temporal behaviour of the active-response flag on `response.done`.
When the response completed with `status="failed"` and error code
`rate_limit_exceeded`, the flag is not cleared: it stays true, a 5000 ms
timer is scheduled, firing the due timers at any instant inside the cooldown
window leaves the flag true, and firing them at or after `now + 5000` clears
it.  For every other `response.done` outcome (normal completion, or
cancellation with reason `turn_detected`) the flag is cleared immediately by
the step itself. -/
theorem c5_rate_limit_cooldown (p : VoiceAgent.JsonParse) (exec : VoiceAgent.Exec)
    (s : VoiceAgent.AgentState) (now : Nat)
    (hactive : s.hasActiveResponse = true) (hclear : s.pendingClears = []) :
    ((VoiceAgent.stepMsg p exec now s
        (VoiceAgent.InMsg.responseDone "failed" none (some "rate_limit_exceeded"))).1.hasActiveResponse
      = true)
  ∧ ((VoiceAgent.stepMsg p exec now s
        (VoiceAgent.InMsg.responseDone "failed" none (some "rate_limit_exceeded"))).1.pendingClears
      = [now + 5000])
  ∧ (∀ t, t < now + 5000 →
       (VoiceAgent.fireDue t (VoiceAgent.stepMsg p exec now s
          (VoiceAgent.InMsg.responseDone "failed" none (some "rate_limit_exceeded"))).1).hasActiveResponse
        = true)
  ∧ (∀ t, now + 5000 ≤ t →
       (VoiceAgent.fireDue t (VoiceAgent.stepMsg p exec now s
          (VoiceAgent.InMsg.responseDone "failed" none (some "rate_limit_exceeded"))).1).hasActiveResponse
        = false)
  ∧ (∀ status reason ecode, ¬(status = "failed" ∧ ecode = some "rate_limit_exceeded") →
       (VoiceAgent.stepMsg p exec now s
          (VoiceAgent.InMsg.responseDone status reason ecode)).1.hasActiveResponse = false) := by
  have hstep : VoiceAgent.stepMsg p exec now s
      (VoiceAgent.InMsg.responseDone "failed" none (some "rate_limit_exceeded"))
      = ({ s with pendingClears := [now + 5000] }, [VoiceAgent.Effect.emitEvent "response_done"]) := by
    simp [VoiceAgent.stepMsg, hclear]
  refine ⟨?_, ?_, ?_, ?_, ?_⟩
  · simp [hstep, hactive]
  · simp [hstep]
  · intro t ht
    have hnot : ¬ (now + 5000 ≤ t) := by omega
    simp [hstep, VoiceAgent.fireDue, hnot, hactive]
  · intro t ht
    simp [hstep, VoiceAgent.fireDue, ht]
  · intro status reason ecode h
    by_cases h1 : status = "cancelled" ∧ reason = some "turn_detected"
    · simp [VoiceAgent.stepMsg, h1]
    · simp [VoiceAgent.stepMsg, h1, h]

/-- C5 witness: from an agent with an active response, a rate-limited
`response.done` at time 0 leaves the flag true, firing timers at 4999 ms
still leaves it true, firing them at 5000 ms clears it, and a normal
completion clears it immediately. -/
theorem c5_witness :
    ((VoiceAgent.stepMsg alwaysFailParse okExec 0 activeAgent
        (VoiceAgent.InMsg.responseDone "failed" none (some "rate_limit_exceeded"))).1.hasActiveResponse
      = true)
  ∧ ((VoiceAgent.fireDue 4999 (VoiceAgent.stepMsg alwaysFailParse okExec 0 activeAgent
        (VoiceAgent.InMsg.responseDone "failed" none (some "rate_limit_exceeded"))).1).hasActiveResponse
      = true)
  ∧ ((VoiceAgent.fireDue 5000 (VoiceAgent.stepMsg alwaysFailParse okExec 0 activeAgent
        (VoiceAgent.InMsg.responseDone "failed" none (some "rate_limit_exceeded"))).1).hasActiveResponse
      = false)
  ∧ ((VoiceAgent.stepMsg alwaysFailParse okExec 0 activeAgent
        (VoiceAgent.InMsg.responseDone "completed" none none)).1.hasActiveResponse = false) := by
  have h := c5_rate_limit_cooldown alwaysFailParse okExec activeAgent 0 rfl rfl
  exact ⟨h.1, h.2.2.1 4999 (by omega), h.2.2.2.1 5000 (by omega),
         h.2.2.2.2 "completed" none none (by simp)⟩

/-- C6 counterexample: a successful dispatch (known function, empty
arguments, handler returns `null`, channel open) sends exactly the
`function_call_output` item and then waits 500 ms — no `response.create` is
issued by the dispatcher at all, neither after the grace delay nor
immediately. -/
theorem c6_counterexample :
    (VoiceAgent.handleFunctionCall alwaysFailParse okExec
        ⟨some ⟨"check_inventory", "", some "call_1"⟩, "", "", false,
         some VoiceAgent.ReadyState.opened, []⟩).2
      = [VoiceAgent.Effect.send (VoiceAgent.OutMsg.conversationItemCreate (some "call_1") Json.null),
         VoiceAgent.Effect.wait 500]
  ∧ VoiceAgent.Effect.send VoiceAgent.OutMsg.responseCreate ∉
      (VoiceAgent.handleFunctionCall alwaysFailParse okExec
        ⟨some ⟨"check_inventory", "", some "call_1"⟩, "", "", false,
         some VoiceAgent.ReadyState.opened, []⟩).2 := by
  have h : (VoiceAgent.handleFunctionCall alwaysFailParse okExec
      ⟨some ⟨"check_inventory", "", some "call_1"⟩, "", "", false,
       some VoiceAgent.ReadyState.opened, []⟩).2
      = [VoiceAgent.Effect.send (VoiceAgent.OutMsg.conversationItemCreate (some "call_1") Json.null),
         VoiceAgent.Effect.wait 500] := rfl
  refine ⟨h, ?_⟩
  rw [h]
  simp

/-- C6 (amended): after every dispatched call with the channel open, the
result — success or error — is sent back as a `conversation.item.create`
whose `function_call_output` item is tagged with the originating call's
`call_id`; after a successful send the dispatcher awaits a 500 ms settling
delay, but it never issues a `response.create` itself (the next model turn is
requested elsewhere, on `input_audio_buffer.committed`). -/
theorem c6_output_tagged_no_turn_request (p : VoiceAgent.JsonParse)
    (exec : VoiceAgent.Exec) (s : VoiceAgent.AgentState) (fc : VoiceAgent.FunctionCall)
    (hfc : s.functionCall = some fc)
    (hch : s.dataChannel = some VoiceAgent.ReadyState.opened) :
    (∀ r, VoiceAgent.dispatchTry p exec fc = Except.ok r →
       (VoiceAgent.handleFunctionCall p exec s).2 =
         [VoiceAgent.Effect.send (VoiceAgent.OutMsg.conversationItemCreate fc.call_id r),
          VoiceAgent.Effect.wait 500])
  ∧ (∀ message, VoiceAgent.dispatchTry p exec fc = Except.error message →
       (VoiceAgent.handleFunctionCall p exec s).2 =
         [VoiceAgent.Effect.send (VoiceAgent.OutMsg.conversationItemCreate fc.call_id
            (VoiceAgent.errorPayload fc.name message))])
  ∧ VoiceAgent.Effect.send VoiceAgent.OutMsg.responseCreate ∉
      (VoiceAgent.handleFunctionCall p exec s).2 := by
  refine ⟨?_, ?_, ?_⟩
  · intro r hr
    simp [VoiceAgent.handleFunctionCall, hfc, hch, hr, VoiceAgent.dispatchComplete]
  · intro message hm
    simp [VoiceAgent.handleFunctionCall, hfc, hch, hm, VoiceAgent.dispatchComplete]
  · cases hres : VoiceAgent.dispatchTry p exec fc with
    | ok r =>
        simp [VoiceAgent.handleFunctionCall, hfc, hch, hres, VoiceAgent.dispatchComplete]
    | error message =>
        simp [VoiceAgent.handleFunctionCall, hfc, hch, hres, VoiceAgent.dispatchComplete]

/-- C6 witness: a concrete successful dispatch sends the tagged output and
waits 500 ms. -/
theorem c6_witness :
    (VoiceAgent.handleFunctionCall alwaysFailParse okExec
        ⟨some ⟨"start_travel", "", some "call_2"⟩, "", "", false,
         some VoiceAgent.ReadyState.opened, []⟩).2
      = [VoiceAgent.Effect.send (VoiceAgent.OutMsg.conversationItemCreate (some "call_2") Json.null),
         VoiceAgent.Effect.wait 500] :=
  (c6_output_tagged_no_turn_request alwaysFailParse okExec
      ⟨some ⟨"start_travel", "", some "call_2"⟩, "", "", false,
       some VoiceAgent.ReadyState.opened, []⟩
      ⟨"start_travel", "", some "call_2"⟩ rfl rfl).1 Json.null rfl

/-- Helper: inserting an index whose completion time dominates every index
already placed appends it at the end. -/
theorem insertIdx_append (cs : List Nat) (i : Nat) (acc : List Nat)
    (h : ∀ j ∈ acc, cs.getD j 0 ≤ cs.getD i 0) :
    AudioPipeline.insertIdx cs i acc = acc ++ [i] := by
  induction acc with
  | nil => rfl
  | cons j rest ih =>
      have hj := h j (List.mem_cons_self j rest)
      rw [AudioPipeline.insertIdx, if_pos hj,
          ih (fun k hk => h k (List.mem_cons_of_mem j hk))]
      rfl

/-- C7 counterexample: two audio deltas arriving at times 0 and 1 with decode
latencies 10 and 1 are rendered in the order second-then-first — playback
start order differs from arrival order when decode latencies differ. -/
theorem c7_counterexample :
    AudioPipeline.renderOrder [(0, 10), (1, 1)] = [1, 0]
  ∧ AudioPipeline.arrivalOrder [(0, 10), (1, 1)] = [0, 1]
  ∧ AudioPipeline.renderOrder [(0, 10), (1, 1)]
      ≠ AudioPipeline.arrivalOrder [(0, 10), (1, 1)] := by
  refine ⟨rfl, rfl, ?_⟩
  decide

/-- C7 (amended): deltas are handed to the decoder in arrival order, but each
chunk starts playing when its own decode completes, so playback-start order
is the order of decode-completion times (arrival + latency); it equals
arrival order exactly when the completion times are nondecreasing along the
arrival sequence — for example with equal decode latencies — not for
arbitrary differing latencies. -/
theorem c7_render_order_when_completions_monotone (chunks : List (Nat × Nat))
    (hmono : List.Pairwise (· ≤ ·) (AudioPipeline.completions chunks)) :
    AudioPipeline.renderOrder chunks = AudioPipeline.arrivalOrder chunks := by
  have hlen : (AudioPipeline.completions chunks).length = chunks.length := by
    simp [AudioPipeline.completions]
  have hpt : ∀ j k, j < k → k < chunks.length →
      (AudioPipeline.completions chunks).getD j 0
        ≤ (AudioPipeline.completions chunks).getD k 0 := by
    intro j k hjk hk
    have hk' : k < (AudioPipeline.completions chunks).length := by omega
    have hj' : j < (AudioPipeline.completions chunks).length := by omega
    rw [List.getD_eq_getElem (AudioPipeline.completions chunks) 0 hj',
        List.getD_eq_getElem (AudioPipeline.completions chunks) 0 hk']
    exact List.pairwise_iff_getElem.mp hmono j k hj' hk' hjk
  have main : ∀ n, n ≤ chunks.length →
      (List.range n).foldl
        (fun acc i => AudioPipeline.insertIdx (AudioPipeline.completions chunks) i acc) []
      = List.range n := by
    intro n
    induction n with
    | zero => intro _; simp
    | succ m ih =>
        intro hle
        rw [List.range_succ, List.foldl_append, ih (by omega)]
        simp only [List.foldl_cons, List.foldl_nil]
        apply insertIdx_append
        intro j hj
        exact hpt j m (List.mem_range.mp hj) (by omega)
  exact main chunks.length (by omega)

/-- C7 witness: three chunks with equal decode latencies play in arrival
order. -/
theorem c7_witness :
    AudioPipeline.renderOrder [(0, 2), (1, 2), (2, 2)]
      = AudioPipeline.arrivalOrder [(0, 2), (1, 2), (2, 2)] :=
  c7_render_order_when_completions_monotone [(0, 2), (1, 2), (2, 2)] (by decide)

/-- C8: after `cleanup()` (run by `disconnect()`), the data channel is null,
and the post-handler send site of `handleFunctionCall` — which re-reads
`this.dataChannel` when the in-flight handler finally returns — discards the
result entirely: no effect is produced for a null channel, nor for a channel
in any non-open ready state. -/
theorem c8_result_discarded_after_teardown (s : VoiceAgent.AgentState)
    (fc : VoiceAgent.FunctionCall) (result : Except String Json) :
    ((VoiceAgent.cleanup s).dataChannel = none)
  ∧ (VoiceAgent.dispatchComplete fc result ((VoiceAgent.cleanup s).dataChannel) = [])
  ∧ (VoiceAgent.dispatchComplete fc result (some VoiceAgent.ReadyState.closing) = [])
  ∧ (VoiceAgent.dispatchComplete fc result (some VoiceAgent.ReadyState.closed) = [])
  ∧ (VoiceAgent.dispatchComplete fc result (some VoiceAgent.ReadyState.connecting) = []) := by
  refine ⟨rfl, ?_, ?_, ?_, ?_⟩ <;>
    cases result <;> simp [VoiceAgent.dispatchComplete, VoiceAgent.cleanup]

/-- C9 counterexample: schedule a second `connect()` (invocation B) while the
first (invocation A) is suspended at its token fetch — the session is already
`connecting` — and B passes the `if (this.peerConnection) return` guard and
runs the body: the completed run has sent two `session.update` configuration
messages instead of being a no-op. -/
theorem c9_counterexample :
    ((SessionCtl.runSched SessionCtl.initCState [false]).phase
      = SessionCtl.Phase.connecting)
  ∧ ((SessionCtl.runSched SessionCtl.initCState [false]).b = SessionCtl.CPC.entry)
  ∧ ((SessionCtl.runSched SessionCtl.initCState [false, true]).b
      = SessionCtl.CPC.afterToken)
  ∧ (SessionCtl.runSched SessionCtl.initCState [false, true, false, true]
      = ⟨true, SessionCtl.Phase.active, 2, SessionCtl.CPC.finished, SessionCtl.CPC.finished⟩) := by
  decide

/-- C9 (amended): `connect()` is a no-op (with only a log) whenever
`this.peerConnection` already exists — which holds throughout `Active` and in
the part of `Connecting` after the peer connection is created: the guarded
call only marks itself returned-early, changing no session state and sending
no `session.update`.  A call interleaved during the initial token-fetch
await, before the peer connection is assigned, is not guarded. -/
theorem c9_connect_noop_when_pc_exists (s : SessionCtl.CState)
    (hpc : s.pcExists = true) (ha : s.a = SessionCtl.CPC.entry) :
    SessionCtl.schedStep s false = { s with a := SessionCtl.CPC.aborted } := by
  simp [SessionCtl.schedStep, SessionCtl.advance, ha, hpc]

/-- C9 witness: an active session with an assigned peer connection turns a
fresh `connect()` into a pure early return. -/
theorem c9_witness :
    SessionCtl.schedStep
        ⟨true, SessionCtl.Phase.active, 1, SessionCtl.CPC.entry, SessionCtl.CPC.finished⟩ false
      = ⟨true, SessionCtl.Phase.active, 1, SessionCtl.CPC.aborted, SessionCtl.CPC.finished⟩ :=
  c9_connect_noop_when_pc_exists
    ⟨true, SessionCtl.Phase.active, 1, SessionCtl.CPC.entry, SessionCtl.CPC.finished⟩ rfl rfl

/-- C10: a function call completing with an empty argument string is not a
malformed-arguments failure: the dispatcher never consults `JSON.parse`
(whatever parse oracle is installed, the dispatch result is the same) and
invokes the registered handler with the empty argument object. -/
theorem c10_empty_arguments_dispatch (p p' : VoiceAgent.JsonParse)
    (exec : VoiceAgent.Exec) (fc : VoiceAgent.FunctionCall)
    (hempty : fc.arguments = "")
    (hmap : fc.name ∈ VoiceAgent.functionMapNames)
    (hswitch : fc.name ∈ VoiceAgent.switchNames) :
    VoiceAgent.dispatchTry p exec fc = exec fc.name (Json.obj [])
  ∧ VoiceAgent.dispatchTry p exec fc = VoiceAgent.dispatchTry p' exec fc := by
  have h1 : ∀ q : VoiceAgent.JsonParse,
      VoiceAgent.dispatchTry q exec fc = exec fc.name (Json.obj []) := by
    intro q
    simp [VoiceAgent.dispatchTry, VoiceAgent.parsedArguments, hempty, hmap, hswitch]
  exact ⟨h1 p, (h1 p).trans (h1 p').symm⟩

/-- C10 witness: `check_inventory` with an empty argument string dispatches
to the handler with the empty object, independently of the parse oracle. -/
theorem c10_witness :
    VoiceAgent.dispatchTry alwaysFailParse okExec ⟨"check_inventory", "", some "c10"⟩
      = okExec "check_inventory" (Json.obj [])
  ∧ VoiceAgent.dispatchTry alwaysFailParse okExec ⟨"check_inventory", "", some "c10"⟩
      = VoiceAgent.dispatchTry braceParse okExec ⟨"check_inventory", "", some "c10"⟩ :=
  c10_empty_arguments_dispatch alwaysFailParse braceParse okExec
    ⟨"check_inventory", "", some "c10"⟩ rfl (by decide) (by decide)

/-- C2 (amended): at most one PendingFunctionCall exists at any time because
the accumulator is a single slot (`functionCallArgumentsBuffer` plus
`functionCall`), but an event that would open a second call while one is
open is neither queued nor rejected: `function_call.started` unconditionally
resets the argument buffer, silently discarding whatever the open call had
accumulated, and emits no effect. -/
theorem c2_second_open_silently_resets (p : VoiceAgent.JsonParse)
    (exec : VoiceAgent.Exec) (now : Nat) (s : VoiceAgent.AgentState) :
    VoiceAgent.stepMsg p exec now s VoiceAgent.InMsg.fcStarted
      = ({ s with functionCallArgumentsBuffer := "" }, []) :=
  rfl
